import Mathlib

/-!
# Verification of the sync / conflict-resolution core

Shallow embedding of the synchronization subsystem of the repository:
the Cloudflare sync worker (`src/worker/src/index.ts`) over the Supabase
`posts` table and its triggers (`src/unnamed/part_002`), and the Google
Apps Script database layer (`src/Database.gs`, `src/Config.gs`).
-/

namespace PublicService

/-! ## Worker-side record store (src/worker/src/index.ts, src/unnamed/part_002)

A row of the Supabase `posts` table as the sync worker sees it. `version`,
`last_modified_by` and `updated_at` are the columns the conflict check reads;
the remaining data columns (title, status, notes, ...) are kept as an
association list from column name to value. Payload entries for `version`,
`updated_at` and `last_modified_by` never reach `fields`: in
`syncUpdatePost` the destructuring removes `version` while the spread pins
`last_modified_by`, and the `posts_version` / `posts_updated_at` BEFORE
UPDATE triggers overwrite `version` and `updated_at` on every UPDATE. -/
structure WPost where
  post_id : String
  version : Nat
  last_modified_by : String
  updated_at : String
  fields : List (String × String)
deriving Repr, DecidableEq

/-- Set one column of the association list of data columns (an UPDATE
assigns the column its new value; a fresh column is appended). -/
def setField (fs : List (String × String)) (k v : String) : List (String × String) :=
  if fs.any (fun kv => kv.1 == k) then
    fs.map (fun kv => if kv.1 == k then (k, v) else kv)
  else
    fs ++ [(k, v)]

/-- Apply every column assignment of an update payload. -/
def applyPatch (fs : List (String × String)) (patch : List (String × String)) :
    List (String × String) :=
  patch.foldl (fun a kv => setField a kv.1 kv.2) fs

/-- `select ... .eq('post_id', id).single()`: the row with the given
`post_id` (the schema declares `post_id` UNIQUE; we take the first match). -/
def lookupPost (store : List WPost) (id : String) : Option WPost :=
  store.find? (fun p => p.post_id == id)

/-- A Supabase `update(payload).eq('post_id', id)` on `posts` together with
the BEFORE UPDATE triggers of `src/unnamed/part_002`: `posts_version` sets
`NEW.version = OLD.version + 1` and `posts_updated_at` sets
`NEW.updated_at = NOW()`. `src` is the `last_modified_by` value the handler
pins in the payload (`'sheets'` or `'studio'`). -/
def dbUpdatePosts (now : String) (store : List WPost) (id : String)
    (patch : List (String × String)) (src : String) : List WPost :=
  store.map (fun p =>
    if p.post_id == id then
      { p with
        fields := applyPatch p.fields patch
        last_modified_by := src
        version := p.version + 1
        updated_at := now }
    else p)

/-- Responses of `syncUpdatePost` (404 / 409 / 200 equivalents). -/
inductive SyncResp where
  | notFound
  | conflict (server_version your_version : Nat) (last_modified_by last_modified_at : String)
  | success
deriving Repr, DecidableEq

/-- The body of a `/sync/from-sheets` update: `const { post_id, version,
...updates } = data`. `version` is `Option Nat` because the TypeScript field
is optional (`version?: number`). -/
structure UpdatePayload where
  post_id : String
  version : Option Nat
  patch : List (String × String)
deriving Repr, DecidableEq

/-- `syncUpdatePost` (src/worker/src/index.ts:288-340): fetch the stored
row; 404 if absent; if `version !== undefined && version < existing.version`
answer 409 with `server_version`, `your_version`, `last_modified_by`,
`last_modified_at` and do not mutate; otherwise apply the patch (the
triggers bump `version` and stamp `updated_at`). -/
def syncUpdatePost (now : String) (d : UpdatePayload) (store : List WPost) :
    SyncResp × List WPost :=
  match lookupPost store d.post_id with
  | none => (.notFound, store)
  | some existing =>
    match d.version with
    | some v =>
      if v < existing.version then
        (.conflict existing.version v existing.last_modified_by existing.updated_at, store)
      else
        (.success, dbUpdatePosts now store d.post_id d.patch "sheets")
    | none => (.success, dbUpdatePosts now store d.post_id d.patch "sheets")

/-- Concrete sample store used by the witnesses. -/
def wStore0 : List WPost :=
  [⟨"P1:1", 3, "studio", "t0", [("title", "Predikan"), ("status", "planerad")]⟩,
   ⟨"P1:2", 1, "sheets", "t0", []⟩]

/-! ## Batch sync (`syncBatchFromSheets`, src/worker/src/index.ts:364-409) -/

/-- The per-batch result accumulator
`{created: 0, updated: 0, conflicts: [], errors: []}`. -/
structure BatchResults where
  created : Nat
  updated : Nat
  conflicts : List String
  errors : List String
deriving Repr, DecidableEq

/-- One incoming record of a `batch_sync` payload. `version` is `Option Nat`
because incoming JSON may omit it even though the TypeScript interface
declares it. -/
structure BPost where
  post_id : String
  version : Option Nat
  fields : List (String × String)
deriving Repr, DecidableEq

/-- The batch conflict guard `post.version && post.version <
existing.version`: JavaScript truthiness makes both a missing version and
version `0` skip the check (both are falsy). -/
def jsStaleCheck (pv : Option Nat) (storedv : Nat) : Bool :=
  match pv with
  | none => false
  | some v => (v != 0) && decide (v < storedv)

/-- A record is treated as stale by the batch code: it exists in the store
and `post.version && post.version < existing.version` holds. -/
def staleCodeB (store : List WPost) (p : BPost) : Bool :=
  match lookupPost store p.post_id with
  | some e => jsStaleCheck p.version e.version
  | none => false

/-- A record is stale in the sense of the claim: it exists in the store and
carries a client version strictly less than the stored version. -/
def claimStaleB (store : List WPost) (p : BPost) : Bool :=
  match lookupPost store p.post_id, p.version with
  | some e, some v => decide (v < e.version)
  | _, _ => false

/-- One iteration of the `for (const post of posts)` loop. The whole body is
wrapped in `try/catch`; `oracle` injects the exception a persistence call
may throw for a given `post_id` (caught and pushed onto `errors`), so that
the error-isolation behaviour of the loop is part of the model. On create
the inserted row takes the payload version (column default 1 when absent);
on update the `posts_version` trigger bumps the stored version. -/
def batchStep (oracle : String → Option String) (now : String)
    (acc : BatchResults × List WPost) (p : BPost) : BatchResults × List WPost :=
  let res := acc.1
  let store := acc.2
  match lookupPost store p.post_id with
  | some existing =>
    if jsStaleCheck p.version existing.version then
      ({ res with conflicts := res.conflicts ++ [p.post_id] }, store)
    else
      match oracle p.post_id with
      | some msg => ({ res with errors := res.errors ++ [p.post_id ++ ": " ++ msg] }, store)
      | none =>
        ({ res with updated := res.updated + 1 },
         dbUpdatePosts now store p.post_id p.fields "sheets")
  | none =>
    match oracle p.post_id with
    | some msg => ({ res with errors := res.errors ++ [p.post_id ++ ": " ++ msg] }, store)
    | none =>
      ({ res with created := res.created + 1 },
       store ++ [⟨p.post_id, p.version.getD 1, "sheets", now, p.fields⟩])

/-- `syncBatchFromSheets`: fold the loop body over the incoming records,
starting from zeroed counters. No conflict or error aborts the fold. -/
def syncBatchFromSheets (oracle : String → Option String) (now : String)
    (store : List WPost) (posts : List BPost) : BatchResults × List WPost :=
  posts.foldl (batchStep oracle now) (⟨0, 0, [], []⟩, store)

/-- The no-exception oracle: every persistence call succeeds. -/
def noFail : String → Option String := fun _ => none

/-! ## Two concurrent updates (src/worker/src/index.ts:288-340 under interleaving)

`syncUpdatePost` issues two separate database round trips: a `select` of the
stored version metadata, then an unconditional `update ... eq('post_id', id)`
with no predicate on `version`. The following small scheduler runs two such
requests step by step so that their round trips can interleave. -/

/-- One in-flight update request: its payload, the outcome of its own
`select` (`none`: not yet executed; `some none`: post absent; `some (some p)`:
the observed row metadata), and its response once finished. -/
structure ClientCtx where
  op : UpdatePayload
  readObs : Option (Option WPost)
  done : Option SyncResp
deriving Repr, DecidableEq

/-- The shared store together with two in-flight requests `a` and `b`. -/
structure TwoClientState where
  store : List WPost
  a : ClientCtx
  b : ClientCtx
deriving Repr, DecidableEq

/-- The first round trip: `select version, last_modified_by, updated_at`. -/
def readPhase (store : List WPost) (c : ClientCtx) : ClientCtx :=
  { c with readObs := some (lookupPost store c.op.post_id) }

/-- The second round trip: the conflict check against the version this
client itself observed, then — when the check passes — the unconditional
`update` on the *current* store (the `posts_version` trigger increments
whatever version the row has at write time). -/
def writePhase (now : String) (store : List WPost) (c : ClientCtx) :
    ClientCtx × List WPost :=
  match c.readObs with
  | none => (c, store)
  | some none => ({ c with done := some SyncResp.notFound }, store)
  | some (some obs) =>
    match c.op.version with
    | some v =>
      if v < obs.version then
        (let resp := SyncResp.conflict obs.version v obs.last_modified_by obs.updated_at
         ({ c with done := some resp }, store))
      else
        ({ c with done := some SyncResp.success },
         dbUpdatePosts now store c.op.post_id c.op.patch "sheets")
    | none =>
      ({ c with done := some SyncResp.success },
       dbUpdatePosts now store c.op.post_id c.op.patch "sheets")

/-- Run the next pending round trip of client `a` (`who = false`) or `b`
(`who = true`); a finished client leaves the state unchanged. -/
def stepClient (now : String) (st : TwoClientState) (who : Bool) : TwoClientState :=
  let c := if who then st.b else st.a
  match c.readObs, c.done with
  | none, _ =>
    let c2 := readPhase st.store c
    if who then { st with b := c2 } else { st with a := c2 }
  | some _, none =>
    let r := writePhase now st.store c
    if who then { st with b := r.1, store := r.2 }
    else { st with a := r.1, store := r.2 }
  | some _, some _ => st

/-- Execute a schedule of client turns. -/
def runSched (now : String) (sched : List Bool) (st : TwoClientState) : TwoClientState :=
  sched.foldl (stepClient now) st

/-- Two fresh requests over an initial store. -/
def initTwo (store : List WPost) (opA opB : UpdatePayload) : TwoClientState :=
  ⟨store, ⟨opA, none, none⟩, ⟨opB, none, none⟩⟩

/-! ## Rate limiter (src/Config.gs:1044-1063) -/

/-- `API_CONFIG.RATE_LIMIT` as the JavaScript runtime evaluates it: the
`API_CONFIG` object literal (src/Config.gs:279-301) defines only
`ENDPOINTS`, so the property access yields `undefined`. -/
def apiConfigRateLimit : Option Nat := none

/-- JavaScript `count >= limit` where `limit` may be `undefined`: comparing
a number against `undefined` coerces it to `NaN`, and every comparison
with `NaN` is false. -/
def jsGe (count : Nat) (limit : Option Nat) : Bool :=
  match limit with
  | some l => decide (l ≤ count)
  | none => false

/-- Outcome of `checkRateLimit_`: whether the request is allowed, the
counter value written back (with a 60 s expiry) when it is, and the
`resetIn` hint when it is not. -/
structure RateCheck where
  allowed : Bool
  newCount : Option Nat
  resetIn : Option Nat
deriving Repr, DecidableEq

/-- `checkRateLimit_` (src/Config.gs:1044-1063) for the current counter
value `count` (`0` when the cache entry is absent or expired): reject with
`resetIn = 60` when `count >= API_CONFIG.RATE_LIMIT`, otherwise store
`count + 1` and allow. -/
def checkRateLimit (count : Nat) : RateCheck :=
  if jsGe count apiConfigRateLimit then
    ⟨false, none, some 60⟩
  else
    ⟨true, some (count + 1), none⟩

/-! ## Google Apps Script sheet database (src/Database.gs, src/Config.gs)

A sheet is what `getDataRange().getValues()` returns: row 0 is the header
row, data rows follow; cells are modelled by their string value. -/

/-- A sheet of cell values, header row first. -/
abbrev Sheet := List (List String)

/-- `POST_SCHEMA` (src/Config.gs:53-76): the 0-based column index of each
posts-table field, looked up at the upper-cased patch key
(`POST_SCHEMA[key.toUpperCase()]`). -/
def postSchemaUpper : String → Option Nat
  | "ID" => some 0
  | "PROGRAM_NR" => some 1
  | "SORT_ORDER" => some 2
  | "TYPE" => some 3
  | "TITLE" => some 4
  | "DURATION" => some 5
  | "PEOPLE_IDS" => some 6
  | "LOCATION" => some 7
  | "INFO_POS" => some 8
  | "GRAPHICS" => some 9
  | "NOTES" => some 10
  | "RECORDING_DAY" => some 11
  | "RECORDING_TIME" => some 12
  | "STATUS" => some 13
  | "TEXT_AUTHOR" => some 14
  | "COMPOSER" => some 15
  | "ARRANGER" => some 16
  | "OPEN_TEXT" => some 17
  | "CREATED" => some 18
  | "MODIFIED" => some 19
  | _ => none

/-- ASCII uppercasing of one character, as JavaScript `toUpperCase()` acts
on the ASCII keys of a patch object. -/
def jsUpperChar : Char → Char
  | 'a' => 'A' | 'b' => 'B' | 'c' => 'C' | 'd' => 'D' | 'e' => 'E' | 'f' => 'F'
  | 'g' => 'G' | 'h' => 'H' | 'i' => 'I' | 'j' => 'J' | 'k' => 'K' | 'l' => 'L'
  | 'm' => 'M' | 'n' => 'N' | 'o' => 'O' | 'p' => 'P' | 'q' => 'Q' | 'r' => 'R'
  | 's' => 'S' | 't' => 'T' | 'u' => 'U' | 'v' => 'V' | 'w' => 'W' | 'x' => 'X'
  | 'y' => 'Y' | 'z' => 'Z'
  | c => c

/-- `key.toUpperCase()` on ASCII keys. -/
def jsToUpper (s : String) : String := String.mk (s.data.map jsUpperChar)

/-- `key.startsWith('_')`. -/
def jsStartsWithUnderscore (s : String) : Bool :=
  match s.data with
  | c :: _ => c == '_'
  | [] => false

/-- Schema lookup as `updatePost` performs it:
`POST_SCHEMA[key.toUpperCase()]`. -/
def postSchema (key : String) : Option Nat :=
  postSchemaUpper (jsToUpper key)

/-- The 20 post-table column names (`POST_HEADERS`, src/Config.gs:78-83). -/
def postHeaders : List String :=
  ["post_id", "program_nr", "sort_order", "type", "title", "duration_sec",
   "people_ids", "location", "info_pos", "graphics", "notes",
   "recording_day", "recording_time", "status", "text_author",
   "composer", "arranger", "open_text", "created", "modified"]

/-- The search loop `for (let i = 1; i < data.length; i++)` matching
`data[i][POST_SCHEMA.ID] === postId`: first matching 0-based row index of
the full sheet (the header row is skipped). -/
def findPostRowAux : List (List String) → String → Nat → Option Nat
  | [], _, _ => none
  | r :: rs, id, i => if r.getD 0 "" == id then some i else findPostRowAux rs id (i + 1)

/-- Row index of a post in a sheet, `none` when absent. -/
def findPostRow (sheet : Sheet) (postId : String) : Option Nat :=
  findPostRowAux (sheet.drop 1) postId 1

/-- One iteration of the `Object.keys(updates).forEach` body of
`updatePost`: keys starting with `_` are skipped; a key naming a
`POST_SCHEMA` field sets that cell in place (recording an audit change when
the value differs, the old value read from the already part-updated row);
any other key is ignored. The accumulator is the row under mutation
together with the collected changes. -/
def applyUpdatesStep (acc : List String × List (String × String × String))
    (kv : String × String) : List String × List (String × String × String) :=
  if jsStartsWithUnderscore kv.1 then acc
  else
    match postSchema kv.1 with
    | some idx =>
      let oldValue := acc.1.getD idx ""
      (acc.1.set idx kv.2,
       if oldValue != kv.2 then acc.2 ++ [(kv.1, oldValue, kv.2)] else acc.2)
    | none => acc

/-- Apply a whole patch to a row, returning the updated row and the audit
changes. -/
def applyUpdates (row : List String) (updates : List (String × String)) :
    List String × List (String × String × String) :=
  updates.foldl applyUpdatesStep (row, [])

/-- The columns a patch writes: schema indices of its non-underscore keys. -/
def updateCols (updates : List (String × String)) : List Nat :=
  updates.filterMap
    (fun kv => if jsStartsWithUnderscore kv.1 then none else postSchema kv.1)

/-- `updatePost` (src/Database.gs:689-746): find the row of `postId` (throw
when absent), apply the patch in place, stamp the `MODIFIED` column (index
19) with the current timestamp, and write the row back
(`getRange(rowIndex, 1, 1, row.length).setValues([row])` touches only that
row). The per-change audit entries go to the separate audit sheet via
`logAudit_` and never touch the posts table. -/
def updatePost (sheet : Sheet) (postId : String) (updates : List (String × String))
    (now : String) : Option Sheet :=
  match findPostRow sheet postId with
  | none => none
  | some i =>
    let row := sheet.getD i []
    let row2 := ((applyUpdates row updates).1).set 19 now
    some (sheet.set i row2)

/-! ## Soft delete and restore (src/Database.gs:814-937) -/

/-- Header row of `_DB_Trash`: the post headers plus the deletion columns. -/
def trashHeaderRow : List String := postHeaders ++ ["deleted_at", "deleted_by"]

/-- Posts sheet plus the optional `_DB_Trash` sheet (absent until the first
soft delete creates it). -/
structure DbState where
  posts : Sheet
  trash : Option Sheet
deriving Repr, DecidableEq

/-- `archiveDeletedPost_` (src/Database.gs:851-885): create `_DB_Trash`
with its header row when missing, then append the full deleted row extended
with `deleted_at` and `deleted_by`. -/
def archiveDeletedPost (trash : Option Sheet) (postData : List String)
    (now user : String) : Sheet :=
  trash.getD [trashHeaderRow] ++ [postData ++ [now, user]]

/-- `deletePost` (src/Database.gs:814-848): locate the row (throw when
absent), archive it to trash unless `hardDelete`, then `deleteRow` it from
the posts sheet. The audit write targets a different sheet and is not part
of this state. -/
def deletePost (st : DbState) (postId : String) (hardDelete : Bool)
    (now user : String) : Option DbState :=
  match findPostRow st.posts postId with
  | none => none
  | some i =>
    let postData := st.posts.getD i []
    some { posts := st.posts.eraseIdx i
           trash :=
             if hardDelete then st.trash
             else some (archiveDeletedPost st.trash postData now user) }

/-- `restoreDeletedPost` (src/Database.gs:891-937): throw when no trash
sheet exists or the id is not in it; otherwise take the first
`POST_HEADERS.length` columns of the trash row (stripping `deleted_at` /
`deleted_by`), stamp `modified` afresh, append the row to the posts sheet
and delete the trash row. -/
def restoreDeletedPost (st : DbState) (postId : String) (now : String) :
    Option DbState :=
  match st.trash with
  | none => none
  | some tr =>
    match findPostRow tr postId with
    | none => none
    | some i =>
      let postData := ((tr.getD i []).take postHeaders.length).set 19 now
      some { posts := st.posts ++ [postData]
             trash := some (tr.eraseIdx i) }

/-- The rows of a sheet whose `post_id` column equals `id` — the shape on
which active listings (`getAllPostsForProgram_`) and the trash listing
(`getDeletedPosts_`) filter. -/
def rowsWithId (sheet : Sheet) (id : String) : List (List String) :=
  sheet.filter (fun r => r.getD 0 "" == id)

/-! ## Audit log (src/Database.gs:343-374) -/

/-- JavaScript `x || ''` on a possibly-missing string (`undefined`, `null`
and `''` all yield `''`). -/
def jsOrEmpty : Option String → String
  | none => ""
  | some s => s

/-- JavaScript `x || d` on a possibly-missing string. -/
def jsOrDefault (x : Option String) (d : String) : String :=
  match x with
  | none => d
  | some s => if s == "" then d else s

/-- `String(x).substring(0, 500)`. -/
def jsSubstring500 (s : String) : String := String.mk (s.data.take 500)

/-- The fields of an `auditData` object; any of them may be absent. Values
reach the sheet through `String(x || '')`; we model the stringified
value. -/
structure AuditData where
  user : Option String
  action : Option String
  entity_type : Option String
  entity_id : Option String
  field : Option String
  old_value : Option String
  new_value : Option String
  source : Option String
deriving Repr, DecidableEq

/-- The row `logAudit_` appends: timestamp, actor (session user fallback),
action, entity type/id, field, truncated old/new values, source. -/
def auditRow (now sessionUser : String) (d : AuditData) : List String :=
  [now,
   jsOrDefault d.user sessionUser,
   jsOrDefault d.action "unknown",
   jsOrEmpty d.entity_type,
   jsOrEmpty d.entity_id,
   jsOrEmpty d.field,
   jsSubstring500 (jsOrEmpty d.old_value),
   jsSubstring500 (jsOrEmpty d.new_value),
   jsOrDefault d.source "unknown"]

/-- `logAudit_`: the whole body runs inside `try`; `failure` injects the
exception `getDbSheet_` or `appendRow` may throw. The `catch` only logs
locally, so the caller always receives an audit log back — unchanged when
the write failed — and no exception ever propagates. -/
def logAudit (failure : Option String) (log : List (List String))
    (now sessionUser : String) (d : AuditData) : List (List String) :=
  let attempt : Except String (List (List String)) :=
    match failure with
    | some msg => Except.error msg
    | none => Except.ok (log ++ [auditRow now sessionUser d])
  match attempt with
  | Except.ok l => l
  | Except.error _ => log

/-! ## Read-through cache (src/Database.gs:383-463, CacheService) -/

/-- One CacheService entry: key, stored snapshot (the decoded row list) and
absolute expiry instant. -/
structure CacheEntry where
  key : String
  value : List (List String)
  expiresAt : Nat
deriving Repr, DecidableEq

/-- The script cache. -/
abbrev CacheState := List CacheEntry

/-- `CacheService` keys of `CACHE_CONFIG` (src/Database.gs:383-389). -/
def cachePostTypesKey : String := "cache_post_types"

/-- Key of the cached participant directory. -/
def cachePeopleKey : String := "cache_people"

/-- Key of the cached programme table. -/
def cacheProgramsKey : String := "cache_programs"

/-- `CACHE_CONFIG.TTL_SECONDS`. -/
def cacheTTL : Nat := 300

/-- `cache.get(key)`: the stored value while unexpired, else a miss. -/
def cacheServiceGet (cache : CacheState) (now : Nat) (key : String) :
    Option (List (List String)) :=
  match cache.find? (fun e => e.key == key) with
  | some e => if now < e.expiresAt then some e.value else none
  | none => none

/-- `cache.put(key, v, ttl)`: replace any entry for the key. -/
def cacheServicePut (cache : CacheState) (now : Nat) (key : String)
    (v : List (List String)) (ttl : Nat) : CacheState :=
  ⟨key, v, now + ttl⟩ :: cache.filter (fun e => !(e.key == key))

/-- `getCachedData_` (src/Database.gs:397-420): return the cached value on
a hit; otherwise return the freshly fetched data after storing it with the
300 s TTL. `fetched` is the value `fetchFn` reads from the sheet. -/
def getCachedData (cache : CacheState) (now : Nat) (key : String)
    (fetched : List (List String)) : List (List String) × CacheState :=
  match cacheServiceGet cache now key with
  | some v => (v, cache)
  | none => (fetched, cacheServicePut cache now key fetched cacheTTL)

/-- `getAllPeopleCached_`: read-through over the people sheet's data rows
(`data.slice(1)`). -/
def getAllPeopleCached (cache : CacheState) (now : Nat) (people : Sheet) :
    List (List String) × CacheState :=
  getCachedData cache now cachePeopleKey (people.drop 1)

/-- `createPerson` (src/Database.gs:1291-1310): append the person row to
the people sheet. The function touches no cache. -/
def createPerson (people : Sheet) (personId : String)
    (name roles contact ptype : Option String) (timestamp : String) : Sheet :=
  people ++
    [[personId, jsOrEmpty name, jsOrEmpty roles, jsOrEmpty contact,
      jsOrDefault ptype "medverkande", timestamp]]

/-- `invalidateAllCaches` (src/Database.gs:434-445): remove the three cache
keys. This is the only cache invalidation in the repository; it is
reachable solely from the `invalidate_cache` API action and a menu item —
no write path calls it (and `invalidateCache_` has no caller at all). -/
def invalidateAllCaches (cache : CacheState) : CacheState :=
  cache.filter (fun e =>
    !(e.key == cachePostTypesKey || e.key == cachePeopleKey || e.key == cacheProgramsKey))

/-! ## External API authentication (src/Config.gs:1006-1038) and the studio
sync endpoint (src/worker/src/index.ts:145-199) -/

/-- JavaScript falsiness of a possibly-missing string (`null`, `undefined`
and `""` are falsy). -/
def jsFalsyStr : Option String → Bool
  | none => true
  | some s => s == ""

/-- The `a || b` chain locating the API key: first non-falsy operand. -/
def jsOrStr (a b : Option String) : Option String :=
  if jsFalsyStr a then b else a

/-- Result of `validateApiAuth_`. -/
structure AuthResult where
  valid : Bool
  warning : Option String
  error : Option String
deriving Repr, DecidableEq

/-- `validateApiAuth_` (src/Config.gs:1014-1038): with no configured secret
(absent or empty — both falsy) every request is allowed and flagged with a
warning; otherwise the key is taken from `e.parameter.api_key ||
data.api_key || e.parameter.key || null` and compared against the
secret. -/
def validateApiAuth (secret queryKey bodyKey altQueryKey : Option String) : AuthResult :=
  if jsFalsyStr secret then
    ⟨true, some "API_SECRET not configured - API is unprotected", none⟩
  else
    let provided := jsOrStr (jsOrStr queryKey bodyKey) altQueryKey
    if jsFalsyStr provided then
      ⟨false, none, some "API key required. Provide api_key parameter."⟩
    else if provided == secret then ⟨true, none, none⟩
    else ⟨false, none, some "Invalid API key"⟩

/-- The valid post statuses (`POST_STATUS` keys, src/Config.gs:203-208). -/
def validStatuses : List String := ["planerad", "recording", "inspelad", "godkand"]

/-- Response of the `doPost` web handler. -/
inductive ApiResp where
  | rateLimited (retry_after_seconds : Nat)
  | unauthorized (error : String)
  | handled (success : Bool)
deriving Repr, DecidableEq

/-- `doPost` (src/Config.gs:1096-1215) on the mutating `status_update`
action, in source order: rate check first, then `validateApiAuth_`, and
only then the dispatch into `handleStatusUpdate_` (src/Config.gs:1460-1488)
which validates the status and calls `updatePost(post_id,
{status: status || 'planerad'}, 'api')` on the posts sheet. -/
def doPostStatusUpdate (secret queryKey bodyKey altQueryKey : Option String)
    (rateCount : Nat) (sheet : Sheet) (post_id : Option String)
    (status : Option String) (now : String) : ApiResp × Sheet :=
  if (checkRateLimit rateCount).allowed = false then
    (.rateLimited 60, sheet)
  else
    let auth := validateApiAuth secret queryKey bodyKey altQueryKey
    if auth.valid = false then
      (.unauthorized (auth.error.getD ""), sheet)
    else if jsFalsyStr post_id then
      (.handled false, sheet)
    else
      match status with
      | some s =>
        if s != "" && !(validStatuses.contains s) then (.handled false, sheet)
        else
          match updatePost sheet (jsOrEmpty post_id) [("status", jsOrDefault status "planerad")] now with
          | some sheet2 => (.handled true, sheet2)
          | none => (.handled false, sheet)
      | none =>
        match updatePost sheet (jsOrEmpty post_id) [("status", "planerad")] now with
        | some sheet2 => (.handled true, sheet2)
        | none => (.handled false, sheet)

/-- Response of the studio sync endpoint. -/
inductive StudioResp where
  | notFound
  | conflict (server_version your_version : Nat)
  | success
deriving Repr, DecidableEq

/-- `handleStudioSync` (src/worker/src/index.ts:145-199) on an `update`
action. The handler receives only the parsed JSON payload and the database
client: no secret, header or key is consulted anywhere on this path (its
signature does not even take `env`). The conflict guard is
`payload.version && payload.version < existing.version` (truthiness), and
the accepted write sets `status`, `notes` and `last_modified_by: 'studio'`
— the `posts_version` trigger bumps the version. -/
def handleStudioSync (now : String) (post_id status notes : String)
    (version : Option Nat) (store : List WPost) : StudioResp × List WPost :=
  match lookupPost store post_id with
  | none => (.notFound, store)
  | some existing =>
    if jsStaleCheck version existing.version then
      (.conflict existing.version (version.getD 0), store)
    else
      (.success,
       dbUpdatePosts now store post_id [("status", status), ("notes", notes)] "studio")

/-- Concrete posts sheet used by witnesses: header plus two data rows. -/
def demoSheet : Sheet :=
  [postHeaders,
   ["P1:5", "1", "50", "predikan", "Predikan om hopp", "420", "", "talarplats", "",
    "", "", "dag1", "", "planerad", "", "", "", "false", "t0", "t0"],
   ["P1:6", "1", "60", "sang_kor", "Lovsang", "180", "", "", "",
    "", "", "dag1", "", "planerad", "", "", "", "false", "t0", "t0"]]

/-- The sheet obtained by updating the title of `P1:5` in `demoSheet`
(used by the C10 witness). -/
def demoSheetUpdated : Sheet :=
  (updatePost demoSheet "P1:5" [("title", "Ny titel"), ("_source", "api")] "t9").getD []

end PublicService

namespace PublicService

theorem lookupPost_dbUpdatePosts_self (now : String) (store : List WPost)
    (id : String) (patch : List (String × String)) (src : String) (p : WPost)
    (hp : lookupPost store id = some p) :
    lookupPost (dbUpdatePosts now store id patch src) id =
      some { p with
             fields := applyPatch p.fields patch
             last_modified_by := src
             version := p.version + 1
             updated_at := now } := by
  induction store with
  | nil => simp [lookupPost] at hp
  | cons h t ih =>
    by_cases hb : (h.post_id == id) = true
    · have hhp : h = p := by
        simpa [lookupPost, List.find?, hb] using hp
      subst hhp
      simp [lookupPost, dbUpdatePosts, List.find?, hb]
    · have hp' : lookupPost t id = some p := by
        simpa [lookupPost, List.find?, hb] using hp
      have := ih hp'
      simpa [lookupPost, dbUpdatePosts, List.find?, hb] using this

theorem lookupPost_dbUpdatePosts_ne (now : String) (store : List WPost)
    (id id' : String) (patch : List (String × String)) (src : String)
    (hne : id' ≠ id) :
    lookupPost (dbUpdatePosts now store id patch src) id' = lookupPost store id' := by
  induction store with
  | nil => simp [lookupPost, dbUpdatePosts]
  | cons h t ih =>
    by_cases hb : (h.post_id == id) = true
    · have hid : h.post_id = id := by simpa using hb
      have hb' : (h.post_id == id') = false := by
        simp [hid]
        exact fun hcontra => hne hcontra.symm
      simp [lookupPost, dbUpdatePosts, List.find?, hb, hb'] at ih ⊢
      exact ih
    · simp [lookupPost, dbUpdatePosts, List.find?, hb] at ih ⊢
      by_cases hb' : (h.post_id == id') = true
      · simp [hb']
      · simp [hb']
        exact ih

/-- C1: an update payload whose client version is strictly below the stored
version of the target post is answered with the Conflict response carrying
`server_version` (the true stored version), `your_version`,
`last_modified_by` and `last_modified_at`, and the store is returned
completely unchanged. -/
theorem C1_stale_update_conflicts_store_unchanged
    (now : String) (d : UpdatePayload) (store : List WPost) (p : WPost) (v : Nat)
    (hp : lookupPost store d.post_id = some p)
    (hv : d.version = some v)
    (hlt : v < p.version) :
    syncUpdatePost now d store =
      (SyncResp.conflict p.version v p.last_modified_by p.updated_at, store) := by
  simp [syncUpdatePost, hp, hv, hlt]

/-- Witness for C1 on the concrete store `wStore0`: a stale update of
`P1:1` (client version 1 against stored version 3) gets the conflict
response and leaves the store untouched. -/
theorem C1_witness :
    lookupPost wStore0 "P1:1" =
      some ⟨"P1:1", 3, "studio", "t0", [("title", "Predikan"), ("status", "planerad")]⟩ ∧
    (1 : Nat) < 3 ∧
    syncUpdatePost "t1" ⟨"P1:1", some 1, [("status", "recording")]⟩ wStore0 =
      (SyncResp.conflict 3 1 "studio" "t0", wStore0) :=
  ⟨by decide, by decide,
   C1_stale_update_conflicts_store_unchanged "t1"
     ⟨"P1:1", some 1, [("status", "recording")]⟩ wStore0
     ⟨"P1:1", 3, "studio", "t0", [("title", "Predikan"), ("status", "planerad")]⟩ 1
     (by decide) rfl (by decide)⟩

/-- C2: every accepted update — the version check passes (`version ≥
stored`) or the client version is omitted (force write) — succeeds and
leaves the stored version at exactly the previous stored version plus 1,
whatever fields the patch changes: the `posts_version` trigger sets
`NEW.version = OLD.version + 1` on every UPDATE of `posts`. -/
theorem C2_accepted_update_increments_version_by_one
    (now : String) (d : UpdatePayload) (store : List WPost) (p : WPost)
    (hp : lookupPost store d.post_id = some p)
    (hok : d.version = none ∨ ∃ v, d.version = some v ∧ p.version ≤ v) :
    (syncUpdatePost now d store).1 = SyncResp.success ∧
    lookupPost (syncUpdatePost now d store).2 d.post_id =
      some { p with
             fields := applyPatch p.fields d.patch
             last_modified_by := "sheets"
             version := p.version + 1
             updated_at := now } := by
  rcases hok with hnone | ⟨v, hv, hge⟩
  · refine ⟨by simp [syncUpdatePost, hp, hnone], ?_⟩
    simp only [syncUpdatePost, hp, hnone]
    exact lookupPost_dbUpdatePosts_self now store d.post_id d.patch "sheets" p hp
  · have hnlt : ¬ v < p.version := not_lt.mpr hge
    refine ⟨by simp [syncUpdatePost, hp, hv, hnlt], ?_⟩
    simp only [syncUpdatePost, hp, hv, hnlt, if_false]
    exact lookupPost_dbUpdatePosts_self now store d.post_id d.patch "sheets" p hp

/-- Witness for C2 on `wStore0`: a force write (version omitted) to `P1:2`
(stored version 1) succeeds and leaves the stored version at 2. -/
theorem C2_witness :
    lookupPost wStore0 "P1:2" = some ⟨"P1:2", 1, "sheets", "t0", []⟩ ∧
    ((syncUpdatePost "t1" ⟨"P1:2", none, [("notes", "keep local")]⟩ wStore0).1 =
        SyncResp.success ∧
      lookupPost (syncUpdatePost "t1" ⟨"P1:2", none, [("notes", "keep local")]⟩ wStore0).2
          "P1:2" =
        some ⟨"P1:2", 2, "sheets", "t1", [("notes", "keep local")]⟩) :=
  ⟨by decide,
   C2_accepted_update_increments_version_by_one "t1"
     ⟨"P1:2", none, [("notes", "keep local")]⟩ wStore0
     ⟨"P1:2", 1, "sheets", "t0", []⟩ (by decide) (Or.inl rfl)⟩

theorem lookupPost_append_one (store : List WPost) (x : WPost) (id : String)
    (hne : id ≠ x.post_id) :
    lookupPost (store ++ [x]) id = lookupPost store id := by
  have hx : (x.post_id == id) = false := by
    simp only [beq_eq_false_iff_ne, ne_eq]
    exact fun h => hne h.symm
  simp [lookupPost, List.find?_append, List.find?, hx]

theorem staleCodeB_congr (s1 s2 : List WPost) (q : BPost)
    (h : lookupPost s1 q.post_id = lookupPost s2 q.post_id) :
    staleCodeB s1 q = staleCodeB s2 q := by
  simp [staleCodeB, h]

theorem lookupPost_batchStep_ne (oracle : String → Option String) (now : String)
    (res : BatchResults) (store : List WPost) (p : BPost) (id : String)
    (hne : id ≠ p.post_id) :
    lookupPost (batchStep oracle now (res, store) p).2 id = lookupPost store id := by
  cases hl : lookupPost store p.post_id with
  | some e =>
    cases hg : jsStaleCheck p.version e.version with
    | true => simp [batchStep, hl, hg]
    | false =>
      cases ho : oracle p.post_id with
      | some m => simp [batchStep, hl, hg, ho]
      | none =>
        simp [batchStep, hl, hg, ho,
          lookupPost_dbUpdatePosts_ne now store p.post_id id p.fields "sheets" hne]
  | none =>
    cases ho : oracle p.post_id with
    | some m => simp [batchStep, hl, ho]
    | none =>
      simp [batchStep, hl, ho]
      exact lookupPost_append_one store _ id hne

theorem syncBatch_go (oracle : String → Option String) (now : String) :
    ∀ (posts : List BPost) (res : BatchResults) (store : List WPost),
      (posts.map (fun p => p.post_id)).Nodup →
      ((posts.foldl (batchStep oracle now) (res, store)).1.conflicts =
          res.conflicts ++
            (posts.filter (fun p => staleCodeB store p)).map (fun p => p.post_id)) ∧
      ((posts.foldl (batchStep oracle now) (res, store)).1.created +
          (posts.foldl (batchStep oracle now) (res, store)).1.updated +
          (posts.foldl (batchStep oracle now) (res, store)).1.conflicts.length +
          (posts.foldl (batchStep oracle now) (res, store)).1.errors.length =
        res.created + res.updated + res.conflicts.length + res.errors.length +
          posts.length) := by
  intro posts
  induction posts with
  | nil => intro res store _; simp
  | cons p rest ih =>
    intro res store hnd
    rw [List.map_cons, List.nodup_cons] at hnd
    obtain ⟨hnotin, hnd'⟩ := hnd
    have hqne : ∀ q ∈ rest, q.post_id ≠ p.post_id := by
      intro q hq hcontra
      exact hnotin (by rw [← hcontra]; exact List.mem_map_of_mem _ hq)
    rw [List.foldl_cons]
    cases hl : lookupPost store p.post_id with
    | some e =>
      cases hg : jsStaleCheck p.version e.version with
      | true =>
        have hacc : batchStep oracle now (res, store) p =
            ({ res with conflicts := res.conflicts ++ [p.post_id] }, store) := by
          simp [batchStep, hl, hg]
        rw [hacc]
        obtain ⟨H1, H2⟩ :=
          ih { res with conflicts := res.conflicts ++ [p.post_id] } store hnd'
        have hstale : staleCodeB store p = true := by simp [staleCodeB, hl, hg]
        refine ⟨?_, ?_⟩
        · rw [H1]; simp [List.filter_cons, hstale, List.append_assoc]
        · rw [H2]; simp [List.length_append]; omega
      | false =>
        have hstale : staleCodeB store p = false := by simp [staleCodeB, hl, hg]
        cases ho : oracle p.post_id with
        | some m =>
          have hacc : batchStep oracle now (res, store) p =
              ({ res with errors := res.errors ++ [p.post_id ++ ": " ++ m] }, store) := by
            simp [batchStep, hl, hg, ho]
          rw [hacc]
          obtain ⟨H1, H2⟩ :=
            ih { res with errors := res.errors ++ [p.post_id ++ ": " ++ m] } store hnd'
          refine ⟨?_, ?_⟩
          · rw [H1]; simp [List.filter_cons, hstale]
          · rw [H2]; simp [List.length_append]; omega
        | none =>
          have hacc : batchStep oracle now (res, store) p =
              ({ res with updated := res.updated + 1 },
               dbUpdatePosts now store p.post_id p.fields "sheets") := by
            simp [batchStep, hl, hg, ho]
          rw [hacc]
          obtain ⟨H1, H2⟩ :=
            ih { res with updated := res.updated + 1 }
              (dbUpdatePosts now store p.post_id p.fields "sheets") hnd'
          have hfc :
              rest.filter
                  (fun q => staleCodeB (dbUpdatePosts now store p.post_id p.fields "sheets") q) =
                rest.filter (fun q => staleCodeB store q) :=
            List.filter_congr (fun q hq =>
              staleCodeB_congr _ _ q
                (lookupPost_dbUpdatePosts_ne now store p.post_id q.post_id p.fields "sheets"
                  (hqne q hq)))
          refine ⟨?_, ?_⟩
          · rw [H1, hfc]; simp [List.filter_cons, hstale]
          · rw [H2]; simp; omega
    | none =>
      have hstale : staleCodeB store p = false := by simp [staleCodeB, hl]
      cases ho : oracle p.post_id with
      | some m =>
        have hacc : batchStep oracle now (res, store) p =
            ({ res with errors := res.errors ++ [p.post_id ++ ": " ++ m] }, store) := by
          simp [batchStep, hl, ho]
        rw [hacc]
        obtain ⟨H1, H2⟩ :=
          ih { res with errors := res.errors ++ [p.post_id ++ ": " ++ m] } store hnd'
        refine ⟨?_, ?_⟩
        · rw [H1]; simp [List.filter_cons, hstale]
        · rw [H2]; simp [List.length_append]; omega
      | none =>
        have hacc : batchStep oracle now (res, store) p =
            ({ res with created := res.created + 1 },
             store ++ [⟨p.post_id, p.version.getD 1, "sheets", now, p.fields⟩]) := by
          simp [batchStep, hl, ho]
        rw [hacc]
        obtain ⟨H1, H2⟩ :=
          ih { res with created := res.created + 1 }
            (store ++ [⟨p.post_id, p.version.getD 1, "sheets", now, p.fields⟩]) hnd'
        have hfc :
            rest.filter
                (fun q =>
                  staleCodeB
                    (store ++ [⟨p.post_id, p.version.getD 1, "sheets", now, p.fields⟩]) q) =
              rest.filter (fun q => staleCodeB store q) :=
          List.filter_congr (fun q hq =>
            staleCodeB_congr _ _ q
              (lookupPost_append_one store _ q.post_id (hqne q hq)))
        refine ⟨?_, ?_⟩
        · rw [H1, hfc]; simp [List.filter_cons, hstale]
        · rw [H2]; simp; omega

/-- C3 (amended): in a batch of records with pairwise distinct ids the
records are processed independently; `conflicts` lists exactly the ids the
code treats as stale — existing records whose client version is *nonzero*
and strictly less than the stored version (JavaScript truthiness makes a
version of `0` bypass the check like an omitted one) — and
`created + updated + conflicts.length + errors.length = N`, i.e.
`created + updated = N - K - #errors`; no conflict or error aborts the
processing of the remaining records. -/
theorem C3_batch_isolation_amended (oracle : String → Option String) (now : String)
    (store : List WPost) (posts : List BPost)
    (hnd : (posts.map (fun p => p.post_id)).Nodup) :
    ((syncBatchFromSheets oracle now store posts).1.conflicts =
        (posts.filter (fun p => staleCodeB store p)).map (fun p => p.post_id)) ∧
    ((syncBatchFromSheets oracle now store posts).1.created +
        (syncBatchFromSheets oracle now store posts).1.updated +
        (syncBatchFromSheets oracle now store posts).1.conflicts.length +
        (syncBatchFromSheets oracle now store posts).1.errors.length = posts.length) := by
  obtain ⟨H1, H2⟩ := syncBatch_go oracle now posts ⟨0, 0, [], []⟩ store hnd
  exact ⟨by simpa using H1, by simpa using H2⟩

/-- Witness for C3 on a concrete batch: store holds `P1:A` (version 5) and
`P1:B` (version 1); the batch carries a stale `P1:A` (version 3), a fresh
`P1:B` (version 1), a new `P1:C`, and a `P1:D` whose persistence call
throws. Result: `conflicts = ["P1:A"]`, one update, one create, one error,
and the counters sum to the batch length 4. -/
theorem C3_witness :
    ((([⟨"P1:A", some 3, []⟩, ⟨"P1:B", some 1, []⟩, ⟨"P1:C", none, []⟩,
        ⟨"P1:D", none, []⟩] : List BPost).map (fun p => p.post_id)).Nodup) ∧
    ((syncBatchFromSheets (fun id => if id == "P1:D" then some "boom" else none) "t1"
        [⟨"P1:A", 5, "studio", "t0", []⟩, ⟨"P1:B", 1, "sheets", "t0", []⟩]
        [⟨"P1:A", some 3, []⟩, ⟨"P1:B", some 1, []⟩, ⟨"P1:C", none, []⟩,
         ⟨"P1:D", none, []⟩]).1.conflicts = ["P1:A"]) ∧
    ((syncBatchFromSheets (fun id => if id == "P1:D" then some "boom" else none) "t1"
        [⟨"P1:A", 5, "studio", "t0", []⟩, ⟨"P1:B", 1, "sheets", "t0", []⟩]
        [⟨"P1:A", some 3, []⟩, ⟨"P1:B", some 1, []⟩, ⟨"P1:C", none, []⟩,
         ⟨"P1:D", none, []⟩]).1.created +
      (syncBatchFromSheets (fun id => if id == "P1:D" then some "boom" else none) "t1"
        [⟨"P1:A", 5, "studio", "t0", []⟩, ⟨"P1:B", 1, "sheets", "t0", []⟩]
        [⟨"P1:A", some 3, []⟩, ⟨"P1:B", some 1, []⟩, ⟨"P1:C", none, []⟩,
         ⟨"P1:D", none, []⟩]).1.updated +
      (syncBatchFromSheets (fun id => if id == "P1:D" then some "boom" else none) "t1"
        [⟨"P1:A", 5, "studio", "t0", []⟩, ⟨"P1:B", 1, "sheets", "t0", []⟩]
        [⟨"P1:A", some 3, []⟩, ⟨"P1:B", some 1, []⟩, ⟨"P1:C", none, []⟩,
         ⟨"P1:D", none, []⟩]).1.conflicts.length +
      (syncBatchFromSheets (fun id => if id == "P1:D" then some "boom" else none) "t1"
        [⟨"P1:A", 5, "studio", "t0", []⟩, ⟨"P1:B", 1, "sheets", "t0", []⟩]
        [⟨"P1:A", some 3, []⟩, ⟨"P1:B", some 1, []⟩, ⟨"P1:C", none, []⟩,
         ⟨"P1:D", none, []⟩]).1.errors.length = 4) :=
  ⟨by decide,
   ((C3_batch_isolation_amended (fun id => if id == "P1:D" then some "boom" else none) "t1"
      [⟨"P1:A", 5, "studio", "t0", []⟩, ⟨"P1:B", 1, "sheets", "t0", []⟩]
      [⟨"P1:A", some 3, []⟩, ⟨"P1:B", some 1, []⟩, ⟨"P1:C", none, []⟩,
       ⟨"P1:D", none, []⟩] (by decide)).1).trans (by decide),
   (C3_batch_isolation_amended (fun id => if id == "P1:D" then some "boom" else none) "t1"
      [⟨"P1:A", 5, "studio", "t0", []⟩, ⟨"P1:B", 1, "sheets", "t0", []⟩]
      [⟨"P1:A", some 3, []⟩, ⟨"P1:B", some 1, []⟩, ⟨"P1:C", none, []⟩,
       ⟨"P1:D", none, []⟩] (by decide)).2⟩

/-- Counterexample to C3 as stated: a record carrying version `0` is stale
in the claim's sense (0 is strictly less than the stored version 2), yet
the batch guard `post.version && post.version < existing.version` treats
the falsy `0` as an omitted version: the record is *updated*, `conflicts`
stays empty, and `created + updated = 1 ≠ N - K = 0`. -/
theorem C3_counterexample :
    ((syncBatchFromSheets noFail "t1" [⟨"P1:A", 2, "sheets", "t0", []⟩]
        [⟨"P1:A", some 0, []⟩]).1.conflicts = []) ∧
    ((syncBatchFromSheets noFail "t1" [⟨"P1:A", 2, "sheets", "t0", []⟩]
        [⟨"P1:A", some 0, []⟩]).1.updated = 1) ∧
    (([⟨"P1:A", some 0, []⟩] : List BPost).filter
        (fun p => claimStaleB [⟨"P1:A", 2, "sheets", "t0", []⟩] p)).map
        (fun p => p.post_id) = ["P1:A"] ∧
    ((syncBatchFromSheets noFail "t1" [⟨"P1:A", 2, "sheets", "t0", []⟩]
        [⟨"P1:A", some 0, []⟩]).1.conflicts ≠
      (([⟨"P1:A", some 0, []⟩] : List BPost).filter
          (fun p => claimStaleB [⟨"P1:A", 2, "sheets", "t0", []⟩] p)).map
          (fun p => p.post_id)) := by
  refine ⟨by decide, by decide, by decide, by decide⟩

theorem checkRateLimit_allowed (count : Nat) : (checkRateLimit count).allowed = true := by
  simp [checkRateLimit, jsGe, apiConfigRateLimit]

/-- C4 evaluated on the code: `API_CONFIG.RATE_LIMIT` is never defined
(`API_CONFIG` holds only `ENDPOINTS`), so the guard
`count >= API_CONFIG.RATE_LIMIT` compares against `undefined`, which is
false for every counter value. The limiter therefore allows every request —
in particular the 61st request of a window (counter at 60), which the claim
and the code's own documentation (API.md: "60 requests per minute", the
rejected-branch message in `doPost`) say must be rejected with a
retry-after hint. -/
theorem C4_rate_limiter_never_rejects :
    (∀ count : Nat, (checkRateLimit count).allowed = true) ∧
    (checkRateLimit 60).allowed = true ∧
    (checkRateLimit 60).newCount = some 61 := by
  refine ⟨checkRateLimit_allowed, checkRateLimit_allowed 60, by decide⟩

/-- Counterexample to C9 as stated: both requests carry version 1 against
stored version 1; under the interleaving read-A, read-B, write-A, write-B
both version checks pass against the privately observed version 1, both
unconditional updates are applied (there is no compare-and-swap predicate
on the UPDATE), both clients receive success, and the stored version ends
at 3 — no client receives the conflict the claim requires. -/
theorem C9_counterexample :
    ((runSched "t1" [false, true, false, true]
        (initTwo [⟨"P1:1", 1, "studio", "t0", []⟩]
          ⟨"P1:1", some 1, [("title", "A")]⟩
          ⟨"P1:1", some 1, [("title", "B")]⟩)).a.done = some SyncResp.success) ∧
    ((runSched "t1" [false, true, false, true]
        (initTwo [⟨"P1:1", 1, "studio", "t0", []⟩]
          ⟨"P1:1", some 1, [("title", "A")]⟩
          ⟨"P1:1", some 1, [("title", "B")]⟩)).b.done = some SyncResp.success) ∧
    ((runSched "t1" [false, true, false, true]
        (initTwo [⟨"P1:1", 1, "studio", "t0", []⟩]
          ⟨"P1:1", some 1, [("title", "A")]⟩
          ⟨"P1:1", some 1, [("title", "B")]⟩)).store =
      [⟨"P1:1", 3, "sheets", "t1", [("title", "B")]⟩]) := by
  refine ⟨by decide, by decide, by decide⟩

/-- C9 (amended): the worker does not serialize the read-check-write
sequence. When the two requests run serially (read-A, write-A, read-B,
write-B) the version check does its job: the first succeeds and the second
receives the conflict carrying the incremented server version. But when
the round trips interleave (both select before either update) two updates
carrying the same client version equal to the stored version both pass
their checks and both succeed — the UPDATE carries no predicate on
`version`, so nothing forces exactly one conflict. -/
theorem C9_serialized_vs_interleaved (v : Nat) (lmb ts now : String)
    (fs pA pB : List (String × String)) :
    ((runSched now [false, false, true, true]
        (initTwo [⟨"P1:1", v, lmb, ts, fs⟩]
          ⟨"P1:1", some v, pA⟩ ⟨"P1:1", some v, pB⟩)).a.done =
      some SyncResp.success) ∧
    ((runSched now [false, false, true, true]
        (initTwo [⟨"P1:1", v, lmb, ts, fs⟩]
          ⟨"P1:1", some v, pA⟩ ⟨"P1:1", some v, pB⟩)).b.done =
      some (SyncResp.conflict (v + 1) v "sheets" now)) ∧
    ((runSched now [false, true, false, true]
        (initTwo [⟨"P1:1", v, lmb, ts, fs⟩]
          ⟨"P1:1", some v, pA⟩ ⟨"P1:1", some v, pB⟩)).a.done =
      some SyncResp.success) ∧
    ((runSched now [false, true, false, true]
        (initTwo [⟨"P1:1", v, lmb, ts, fs⟩]
          ⟨"P1:1", some v, pA⟩ ⟨"P1:1", some v, pB⟩)).b.done =
      some SyncResp.success) := by
  refine ⟨?_, ?_, ?_, ?_⟩ <;>
    simp [runSched, List.foldl, stepClient, readPhase, writePhase, initTwo,
      lookupPost, List.find?, dbUpdatePosts, applyPatch, lt_self_iff_false,
      Nat.lt_succ_self]

/-- C7 (amended): the Apps Script web handlers do run `validateApiAuth_`
ahead of any business logic — a failing check yields the unauthorized
response with the posts sheet untouched — and a missing (or empty)
configured secret makes the check pass with the "unprotected" warning. The
other half of the claim is false for the worker (see the counterexample):
the studio sync endpoint runs its business logic with no authentication
check at all. -/
theorem C7_gas_auth_before_logic_amended
    (secret queryKey bodyKey altQueryKey : Option String) (rateCount : Nat)
    (sheet : Sheet) (post_id status : Option String) (now : String) :
    (jsFalsyStr secret = true →
      (validateApiAuth secret queryKey bodyKey altQueryKey).valid = true ∧
      (validateApiAuth secret queryKey bodyKey altQueryKey).warning =
        some "API_SECRET not configured - API is unprotected") ∧
    ((validateApiAuth secret queryKey bodyKey altQueryKey).valid = false →
      doPostStatusUpdate secret queryKey bodyKey altQueryKey rateCount sheet
          post_id status now =
        (ApiResp.unauthorized
          ((validateApiAuth secret queryKey bodyKey altQueryKey).error.getD ""),
         sheet)) := by
  constructor
  · intro hf
    simp [validateApiAuth, hf]
  · intro hinvalid
    simp [doPostStatusUpdate, checkRateLimit_allowed, hinvalid]

/-- Witness for the amended C7: with no secret configured the check passes
with the warning; with secret `"s3cret"` configured and no key provided
anywhere, the `status_update` request is rejected before `updatePost` runs
and `demoSheet` is unchanged. -/
theorem C7_witness :
    jsFalsyStr (none : Option String) = true ∧
    (validateApiAuth none none none none).valid = true ∧
    (validateApiAuth (some "s3cret") none none none).valid = false ∧
    doPostStatusUpdate (some "s3cret") none none none 0 demoSheet
        (some "P1:5") (some "recording") "t1" =
      (ApiResp.unauthorized "API key required. Provide api_key parameter.", demoSheet) :=
  ⟨by decide,
   ((C7_gas_auth_before_logic_amended none none none none 0 demoSheet
       (some "P1:5") (some "recording") "t1").1 (by decide)).1,
   by decide,
   ((C7_gas_auth_before_logic_amended (some "s3cret") none none none 0 demoSheet
       (some "P1:5") (some "recording") "t1").2 (by decide)).trans (by decide)⟩

/-- Counterexample to C7 as stated: a `/sync/from-studio` update request
reaches the business logic and mutates the store although nothing on this
path performs a shared-secret check — `handleStudioSync` is not even
handed the environment holding the secret, and the payload carries no key.
The request succeeds and `P1:1` is rewritten (status `recording`, version
bumped to 4), so not every request of the external HTTP surface undergoes
the authentication check before business logic runs. -/
theorem C7_counterexample :
    (handleStudioSync "t1" "P1:1" "recording" "" (some 3) wStore0).1 =
      StudioResp.success ∧
    (handleStudioSync "t1" "P1:1" "recording" "" (some 3) wStore0).2 ≠ wStore0 := by
  refine ⟨by decide, by decide⟩

theorem jsSubstring500_length_le (s : String) : (jsSubstring500 s).length ≤ 500 := by
  show (s.data.take 500).length ≤ 500
  rw [List.length_take]
  exact min_le_left _ _

/-- C8: `logAudit_` never propagates an exception — whatever failure the
sheet access or the append raises, the caller gets an audit log back
(unchanged on failure, with the entry appended on success) — and the
stored `old_value` and `new_value` cells (columns 6 and 7 of the appended
row) are truncated to at most 500 characters. -/
theorem C8_audit_never_throws_and_truncates (failure : Option String)
    (log : List (List String)) (now sessionUser : String) (d : AuditData) :
    logAudit failure log now sessionUser d =
      (match failure with
       | some _ => log
       | none => log ++ [auditRow now sessionUser d]) ∧
    ((auditRow now sessionUser d).getD 6 "").length ≤ 500 ∧
    ((auditRow now sessionUser d).getD 7 "").length ≤ 500 := by
  refine ⟨?_, ?_, ?_⟩
  · cases failure <;> simp [logAudit]
  · exact jsSubstring500_length_le _
  · exact jsSubstring500_length_le _

theorem findPostRowAux_bounds :
    ∀ (rs : List (List String)) (id : String) (n i : Nat),
      findPostRowAux rs id n = some i → n ≤ i ∧ i < n + rs.length := by
  intro rs
  induction rs with
  | nil => intro id n i h; simp [findPostRowAux] at h
  | cons r rest ih =>
    intro id n i h
    rw [List.length_cons]
    simp only [findPostRowAux] at h
    split at h
    · have : n = i := by exact Option.some.inj h
      omega
    · have := ih id (n + 1) i h
      omega

theorem findPostRow_bounds (sheet : Sheet) (postId : String) (i : Nat)
    (h : findPostRow sheet postId = some i) : 1 ≤ i ∧ i < sheet.length := by
  have := findPostRowAux_bounds (sheet.drop 1) postId 1 i h
  rw [List.length_drop] at this
  omega

theorem getD_set_ne {α : Type} (l : List α) (i j : Nat) (a d : α) (h : i ≠ j) :
    (l.set i a).getD j d = l.getD j d := by
  rw [List.getD_eq_getElem?_getD, List.getD_eq_getElem?_getD, List.getElem?_set_ne h]

theorem getD_set_self {α : Type} (l : List α) (i : Nat) (a d : α) (h : i < l.length) :
    (l.set i a).getD i d = a := by
  rw [List.getD_eq_getElem?_getD, List.getElem?_set_self h]
  rfl

theorem applyUpdates_foldl_frame (updates : List (String × String)) :
    ∀ (acc : List String × List (String × String × String)) (c : Nat),
      c ∉ updateCols updates →
      (updates.foldl applyUpdatesStep acc).1.getD c "" = acc.1.getD c "" := by
  induction updates with
  | nil => intro acc c _; simp
  | cons kv rest ih =>
    intro acc c hc
    rw [List.foldl_cons]
    by_cases hu : jsStartsWithUnderscore kv.1 = true
    · have hcols : updateCols (kv :: rest) = updateCols rest := by
        simp [updateCols, List.filterMap_cons, hu]
      rw [hcols] at hc
      have hstep : applyUpdatesStep acc kv = acc := by
        simp [applyUpdatesStep, hu]
      rw [hstep]
      exact ih acc c hc
    · cases hps : postSchema kv.1 with
      | some idx =>
        have hcols : updateCols (kv :: rest) = idx :: updateCols rest := by
          simp [updateCols, List.filterMap_cons, hu, hps]
        rw [hcols, List.mem_cons] at hc
        push_neg at hc
        obtain ⟨hcidx, hcrest⟩ := hc
        have hstep :
            (applyUpdatesStep acc kv).1 = acc.1.set idx kv.2 := by
          simp [applyUpdatesStep, hu, hps]
        rw [ih (applyUpdatesStep acc kv) c hcrest, hstep,
          getD_set_ne _ _ _ _ _ (fun h => hcidx h.symm)]
      | none =>
        have hcols : updateCols (kv :: rest) = updateCols rest := by
          simp [updateCols, List.filterMap_cons, hu, hps]
        rw [hcols] at hc
        have hstep : applyUpdatesStep acc kv = acc := by
          simp [applyUpdatesStep, hu, hps]
        rw [hstep]
        exact ih acc c hc

/-- C10: `updatePost` on an existing post changes, in the posts table, only
cells of the found row at the columns named by the patch's non-underscore
keys (via `POST_SCHEMA`) plus the `MODIFIED` column (index 19): every other
column of that row — in particular `post_id` (0), `program_nr` (1) and
`created` (18) when the patch does not name them — and every other row of
the table keep their previous values. -/
theorem C10_updatePost_frame (sheet : Sheet) (postId : String)
    (updates : List (String × String)) (now : String) (i : Nat) (sheet2 : Sheet)
    (hfind : findPostRow sheet postId = some i)
    (hup : updatePost sheet postId updates now = some sheet2) :
    (∀ j, j ≠ i → sheet2.getD j [] = sheet.getD j []) ∧
    (∀ c, c ∉ updateCols updates → c ≠ 19 →
      (sheet2.getD i []).getD c "" = (sheet.getD i []).getD c "") := by
  have hlt : i < sheet.length := (findPostRow_bounds sheet postId i hfind).2
  have hsheet2 :
      sheet2 = sheet.set i (((applyUpdates (sheet.getD i []) updates).1).set 19 now) := by
    rw [updatePost, hfind] at hup
    exact (Option.some.inj hup).symm
  subst hsheet2
  constructor
  · intro j hj
    exact getD_set_ne sheet i j _ [] (fun h => hj h.symm)
  · intro c hc h19
    rw [getD_set_self sheet i _ [] hlt,
      getD_set_ne _ 19 c _ "" (fun h => h19 h.symm)]
    exact applyUpdates_foldl_frame updates (sheet.getD i [], []) c hc

/-- Witness for C10 on `demoSheet`: patch the title of `P1:5` (plus an
ignored `_source` key). The other data row and the header are unchanged,
and in the updated row `post_id`, `program_nr` and `created` are
unchanged. -/
theorem C10_witness :
    findPostRow demoSheet "P1:5" = some 1 ∧
    updatePost demoSheet "P1:5" [("title", "Ny titel"), ("_source", "api")] "t9" =
      some demoSheetUpdated ∧
    demoSheetUpdated.getD 2 [] = demoSheet.getD 2 [] ∧
    demoSheetUpdated.getD 0 [] = demoSheet.getD 0 [] ∧
    (demoSheetUpdated.getD 1 []).getD 0 "" = (demoSheet.getD 1 []).getD 0 "" ∧
    (demoSheetUpdated.getD 1 []).getD 1 "" = (demoSheet.getD 1 []).getD 1 "" ∧
    (demoSheetUpdated.getD 1 []).getD 18 "" = (demoSheet.getD 1 []).getD 18 "" :=
  ⟨by decide, by decide,
   (C10_updatePost_frame demoSheet "P1:5" [("title", "Ny titel"), ("_source", "api")]
      "t9" 1 demoSheetUpdated (by decide) (by decide)).1 2 (by decide),
   (C10_updatePost_frame demoSheet "P1:5" [("title", "Ny titel"), ("_source", "api")]
      "t9" 1 demoSheetUpdated (by decide) (by decide)).1 0 (by decide),
   (C10_updatePost_frame demoSheet "P1:5" [("title", "Ny titel"), ("_source", "api")]
      "t9" 1 demoSheetUpdated (by decide) (by decide)).2 0 (by decide) (by decide),
   (C10_updatePost_frame demoSheet "P1:5" [("title", "Ny titel"), ("_source", "api")]
      "t9" 1 demoSheetUpdated (by decide) (by decide)).2 1 (by decide) (by decide),
   (C10_updatePost_frame demoSheet "P1:5" [("title", "Ny titel"), ("_source", "api")]
      "t9" 1 demoSheetUpdated (by decide) (by decide)).2 18 (by decide) (by decide)⟩

theorem findPostRowAux_split :
    ∀ (rs : List (List String)) (id : String) (n i : Nat),
      findPostRowAux rs id n = some i →
      ∃ pre r suf, rs = pre ++ r :: suf ∧ i = n + pre.length ∧
        (∀ q ∈ pre, (q.getD 0 "" == id) = false) ∧ (r.getD 0 "" == id) = true := by
  intro rs
  induction rs with
  | nil => intro id n i h; simp [findPostRowAux] at h
  | cons r rest ih =>
    intro id n i h
    simp only [findPostRowAux] at h
    by_cases hm : (r.getD 0 "" == id) = true
    · rw [if_pos hm] at h
      have hni := Option.some.inj h
      refine ⟨[], r, rest, rfl, ?_, ?_, hm⟩
      · simp [← hni]
      · intro q hq; simp at hq
    · rw [if_neg hm] at h
      obtain ⟨pre, rr, suf, hrs, hi, hpre, hrr⟩ := ih id (n + 1) i h
      refine ⟨r :: pre, rr, suf, by rw [List.cons_append, hrs], ?_, ?_, hrr⟩
      · rw [List.length_cons]; omega
      · intro q hq
        rcases List.mem_cons.mp hq with hq | hq
        · subst hq
          revert hm
          cases q.getD 0 "" == id <;> simp
        · exact hpre q hq

theorem findPostRowAux_skip (id : String) :
    ∀ (xs : List (List String)) (y : List String) (ys : List (List String)) (n : Nat),
      (∀ q ∈ xs, (q.getD 0 "" == id) = false) → (y.getD 0 "" == id) = true →
      findPostRowAux (xs ++ y :: ys) id n = some (n + xs.length) := by
  intro xs
  induction xs with
  | nil =>
    intro y ys n _ hy
    rw [List.nil_append]
    simp only [findPostRowAux]
    rw [if_pos hy]
    simp
  | cons x xs2 ih =>
    intro y ys n hall hy
    have hx := hall x (List.mem_cons_self x xs2)
    calc findPostRowAux ((x :: xs2) ++ y :: ys) id n
        = findPostRowAux (xs2 ++ y :: ys) id (n + 1) := by
          rw [List.cons_append]
          simp only [findPostRowAux]
          rw [if_neg (by rw [hx]; simp)]
      _ = some (n + 1 + xs2.length) :=
          ih y ys (n + 1) (fun q hq => hall q (List.mem_cons_of_mem x hq)) hy
      _ = some (n + (x :: xs2).length) := by rw [List.length_cons]; congr 1; omega

theorem eraseIdx_append_len {α : Type} :
    ∀ (pre : List α) (r : α) (suf : List α),
      (pre ++ r :: suf).eraseIdx pre.length = pre ++ suf := by
  intro pre
  induction pre with
  | nil => intro r suf; rfl
  | cons a pre2 ih =>
    intro r suf
    simp only [List.cons_append, List.length_cons, List.eraseIdx_cons_succ, ih]

theorem getD_append_len {α : Type} :
    ∀ (pre : List α) (r : α) (suf : List α) (d : α),
      (pre ++ r :: suf).getD pre.length d = r := by
  intro pre
  induction pre with
  | nil => intro r suf d; rfl
  | cons a pre2 ih =>
    intro r suf d
    simp only [List.cons_append, List.length_cons]
    exact ih r suf d

theorem append_cons_eq_singleton {α : Type} (A : List α) (x : α) (B : List α) (y : α)
    (h : A ++ x :: B = [y]) : A = [] ∧ B = [] ∧ x = y := by
  cases A with
  | nil =>
    simp only [List.nil_append, List.cons.injEq] at h
    exact ⟨rfl, h.2, h.1⟩
  | cons a A2 =>
    simp only [List.cons_append, List.cons.injEq] at h
    exact absurd h.2 (by simp)

/-- C6: soft delete and restore round trip. Soft-deleting an existing post
(occurring in exactly one row, not yet in trash) removes it from the active
posts table, so it is absent from every active listing, and appends its
full row extended with `deleted_at` and `deleted_by` to the trash sheet.
Restoring that id puts the row (deletion columns stripped) back into the
posts table with a freshly stamped `modified` cell and removes it from
trash; restoring an id absent from trash (or with no trash sheet at all)
fails with the not-found error. -/
theorem C6_soft_delete_restore (st : DbState) (postId now user now2 : String)
    (i : Nat) (bh : List String) (btl : List (List String))
    (hfind : findPostRow st.posts postId = some i)
    (huniq : rowsWithId st.posts postId = [st.posts.getD i []])
    (hbase : st.trash.getD [trashHeaderRow] = bh :: btl)
    (htrash0 : rowsWithId (bh :: btl) postId = [])
    (hrlen : (st.posts.getD i []).length = postHeaders.length) :
    deletePost st postId false now user =
      some ⟨st.posts.eraseIdx i,
            some ((bh :: btl) ++ [st.posts.getD i [] ++ [now, user]])⟩ ∧
    rowsWithId (st.posts.eraseIdx i) postId = [] ∧
    st.posts.getD i [] ++ [now, user] ∈
      (bh :: btl) ++ [st.posts.getD i [] ++ [now, user]] ∧
    restoreDeletedPost
        ⟨st.posts.eraseIdx i,
         some ((bh :: btl) ++ [st.posts.getD i [] ++ [now, user]])⟩ postId now2 =
      some ⟨st.posts.eraseIdx i ++ [(st.posts.getD i []).set 19 now2],
            some (bh :: btl)⟩ ∧
    rowsWithId (st.posts.eraseIdx i ++ [(st.posts.getD i []).set 19 now2]) postId =
      [(st.posts.getD i []).set 19 now2] ∧
    (∀ posts2 tr2 : Sheet, findPostRow tr2 postId = none →
      restoreDeletedPost ⟨posts2, some tr2⟩ postId now2 = none) ∧
    (∀ posts2 : Sheet, restoreDeletedPost ⟨posts2, none⟩ postId now2 = none) := by
  obtain ⟨posts, trash⟩ := st
  simp only at hfind huniq hbase hrlen ⊢
  obtain ⟨pre, r, suf, hdrop, hi, hpre, hr⟩ :=
    findPostRowAux_split (posts.drop 1) postId 1 i hfind
  cases posts with
  | nil => simp at hdrop
  | cons hd tl =>
    have htl : tl = pre ++ r :: suf := by simpa using hdrop
    subst htl
    subst hi
    have hrow : (hd :: (pre ++ r :: suf)).getD (1 + pre.length) [] = r := by
      rw [Nat.add_comm 1 pre.length, List.getD_cons_succ, getD_append_len]
    rw [hrow] at huniq hrlen ⊢
    have hr20 : r.length = 20 := by rw [hrlen]; rfl
    simp only [rowsWithId] at huniq htrash0 ⊢
    rw [List.filter_cons] at huniq
    by_cases hph : (hd.getD 0 "" == postId) = true
    · exfalso
      rw [if_pos hph] at huniq
      have hrmem : r ∈ List.filter (fun rr => rr.getD 0 "" == postId) (pre ++ r :: suf) :=
        List.mem_filter.mpr ⟨by simp, hr⟩
      have hinj := List.cons.inj huniq
      rw [hinj.2] at hrmem
      simp at hrmem
    · rw [if_neg hph] at huniq
      rw [List.filter_append, List.filter_cons, if_pos hr] at huniq
      obtain ⟨hfpre, hfsuf, _⟩ := append_cons_eq_singleton _ _ _ _ huniq
      have hallbt := List.filter_eq_nil_iff.mp htrash0
      have hbtfalse : ∀ q ∈ btl, (q.getD 0 "" == postId) = false := by
        intro q hq
        have := hallbt q (List.mem_cons_of_mem bh hq)
        revert this
        cases q.getD 0 "" == postId <;> simp
      have hpnew : ((r ++ [now, user]).getD 0 "" == postId) = true := by
        rw [List.getD_append r [now, user] "" 0 (by omega)]
        exact hr
      have hfindtr :
          findPostRow ((bh :: btl) ++ [r ++ [now, user]]) postId =
            some (1 + btl.length) := by
        have hdrop2 : ((bh :: btl) ++ [r ++ [now, user]]).drop 1 = btl ++ [r ++ [now, user]] := by
          rw [List.cons_append]
          rfl
        rw [findPostRow, hdrop2]
        exact findPostRowAux_skip postId btl (r ++ [now, user]) [] 1 hbtfalse hpnew
      have hgetDtr :
          ((bh :: btl) ++ [r ++ [now, user]]).getD (1 + btl.length) [] = r ++ [now, user] := by
        rw [List.cons_append, Nat.add_comm 1 btl.length, List.getD_cons_succ,
          getD_append_len]
      have htake : (r ++ [now, user]).take postHeaders.length = r := by
        rw [← hrlen]
        exact List.take_left r [now, user]
      have herasetr :
          ((bh :: btl) ++ [r ++ [now, user]]).eraseIdx (1 + btl.length) = bh :: btl := by
        rw [List.cons_append, Nat.add_comm 1 btl.length, List.eraseIdx_cons_succ,
          eraseIdx_append_len, List.append_nil]
      have heraseP :
          (hd :: (pre ++ r :: suf)).eraseIdx (1 + pre.length) = hd :: (pre ++ suf) := by
        rw [Nat.add_comm 1 pre.length, List.eraseIdx_cons_succ, eraseIdx_append_len]
      have hsetid : ((r.set 19 now2).getD 0 "" == postId) = true := by
        rw [getD_set_ne r 19 0 now2 "" (by omega)]
        exact hr
      refine ⟨?_, ?_, ?_, ?_, ?_, ?_, ?_⟩
      · simp only [deletePost, hfind, archiveDeletedPost, hbase, hrow,
          Bool.false_eq_true, if_false, Option.some.injEq]
      · rw [heraseP, List.filter_cons, if_neg hph, List.filter_append, hfpre, hfsuf]
        rfl
      · simp
      · simp only [restoreDeletedPost, hfindtr, hgetDtr, htake, herasetr]
      · rw [heraseP, List.filter_append, List.filter_cons, if_neg hph,
          List.filter_append, hfpre, hfsuf, List.filter_cons, if_pos hsetid]
        rfl
      · intro posts2 tr2 hnone
        simp [restoreDeletedPost, hnone]
      · intro posts2
        rfl

/-- Witness for C6 on `demoSheet` with no pre-existing trash sheet: delete
`P1:5`, observe it gone from the posts table and archived with deletion
metadata, restore it, observe it back with `modified = "t2"` and the trash
back to just its header; restoring from the header-only trash fails. -/
theorem C6_witness :
    findPostRow demoSheet "P1:5" = some 1 ∧
    deletePost ⟨demoSheet, none⟩ "P1:5" false "t1" "coordinator" =
      some ⟨demoSheet.eraseIdx 1,
            some ([trashHeaderRow] ++ [demoSheet.getD 1 [] ++ ["t1", "coordinator"]])⟩ ∧
    rowsWithId (demoSheet.eraseIdx 1) "P1:5" = [] ∧
    restoreDeletedPost
        ⟨demoSheet.eraseIdx 1,
         some ([trashHeaderRow] ++ [demoSheet.getD 1 [] ++ ["t1", "coordinator"]])⟩
        "P1:5" "t2" =
      some ⟨demoSheet.eraseIdx 1 ++ [(demoSheet.getD 1 []).set 19 "t2"],
            some [trashHeaderRow]⟩ ∧
    rowsWithId (demoSheet.eraseIdx 1 ++ [(demoSheet.getD 1 []).set 19 "t2"]) "P1:5" =
      [(demoSheet.getD 1 []).set 19 "t2"] ∧
    restoreDeletedPost ⟨demoSheet, some [trashHeaderRow]⟩ "P1:5" "t2" = none :=
  ⟨by decide,
   (C6_soft_delete_restore ⟨demoSheet, none⟩ "P1:5" "t1" "coordinator" "t2" 1
      trashHeaderRow [] (by decide) (by decide) (by decide) (by decide) (by decide)).1,
   (C6_soft_delete_restore ⟨demoSheet, none⟩ "P1:5" "t1" "coordinator" "t2" 1
      trashHeaderRow [] (by decide) (by decide) (by decide) (by decide)
      (by decide)).2.1,
   (C6_soft_delete_restore ⟨demoSheet, none⟩ "P1:5" "t1" "coordinator" "t2" 1
      trashHeaderRow [] (by decide) (by decide) (by decide) (by decide)
      (by decide)).2.2.2.1,
   (C6_soft_delete_restore ⟨demoSheet, none⟩ "P1:5" "t1" "coordinator" "t2" 1
      trashHeaderRow [] (by decide) (by decide) (by decide) (by decide)
      (by decide)).2.2.2.2.1,
   (C6_soft_delete_restore ⟨demoSheet, none⟩ "P1:5" "t1" "coordinator" "t2" 1
      trashHeaderRow [] (by decide) (by decide) (by decide) (by decide)
      (by decide)).2.2.2.2.2.1 demoSheet [trashHeaderRow] (by decide)⟩

theorem cacheServiceGet_invalidateAllCaches (cache : CacheState) (now : Nat) :
    cacheServiceGet (invalidateAllCaches cache) now cachePeopleKey = none := by
  have hfind :
      (invalidateAllCaches cache).find? (fun e => e.key == cachePeopleKey) = none := by
    induction cache with
    | nil => rfl
    | cons h t ih =>
      by_cases hk : (h.key == cachePeopleKey) = true
      · have hdropd :
            (!(h.key == cachePostTypesKey || h.key == cachePeopleKey ||
                h.key == cacheProgramsKey)) = false := by
          simp [hk]
        simp only [invalidateAllCaches, List.filter_cons, hdropd,
          Bool.false_eq_true, if_false] at ih ⊢
        exact ih
      · by_cases hkeep :
            (!(h.key == cachePostTypesKey || h.key == cachePeopleKey ||
                h.key == cacheProgramsKey)) = true
        · simp only [invalidateAllCaches, List.filter_cons, hkeep, if_true] at ih ⊢
          rw [List.find?]
          simp only [hk, Bool.false_eq_true, if_false]
          exact ih
        · simp only [invalidateAllCaches, List.filter_cons, hkeep,
            Bool.false_eq_true, if_false] at ih ⊢
          exact ih
  rw [cacheServiceGet, hfind]

/-- C5 (amended): no write path invalidates the cache. After `createPerson`
appends a person, a read through `getAllPeopleCached_` still returns
whatever cached snapshot is live — the stale value persists until the
300-second TTL expires or the caches are explicitly cleared via the
`invalidate_cache` API action or the menu item. Only after such an
explicit `invalidateAllCaches` (or once the entry has expired) does the
cached read reflect the write. -/
theorem C5_cache_staleness_amended (cache : CacheState) (now : Nat)
    (people : Sheet) (personId : String) (name roles contact ptype : Option String)
    (timestamp : String) (v : List (List String))
    (hhit : cacheServiceGet cache now cachePeopleKey = some v) :
    (getAllPeopleCached cache now
        (createPerson people personId name roles contact ptype timestamp)).1 = v ∧
    (getAllPeopleCached (invalidateAllCaches cache) now
        (createPerson people personId name roles contact ptype timestamp)).1 =
      (createPerson people personId name roles contact ptype timestamp).drop 1 ∧
    (∀ now2 : Nat, cacheServiceGet cache now2 cachePeopleKey = none →
      (getAllPeopleCached cache now2
          (createPerson people personId name roles contact ptype timestamp)).1 =
        (createPerson people personId name roles contact ptype timestamp).drop 1) := by
  refine ⟨?_, ?_, ?_⟩
  · rw [getAllPeopleCached, getCachedData, hhit]
  · rw [getAllPeopleCached, getCachedData, cacheServiceGet_invalidateAllCaches]
  · intro now2 hmiss
    rw [getAllPeopleCached, getCachedData, hmiss]

/-- Witness for the amended C5 on a concrete state: the people sheet holds
one person and the cache a live snapshot of it; after `createPerson`
appends a second person the cached read still returns the one-person
snapshot, while the read after `invalidateAllCaches` returns both. -/
theorem C5_witness :
    cacheServiceGet [⟨"cache_people", [["P001", "Anna", "", "", "medverkande", "t0"]], 500⟩]
        10 cachePeopleKey = some [["P001", "Anna", "", "", "medverkande", "t0"]] ∧
    (getAllPeopleCached [⟨"cache_people", [["P001", "Anna", "", "", "medverkande", "t0"]], 500⟩]
        10
        (createPerson [["person_id", "name", "roles", "contact", "type", "created"],
          ["P001", "Anna", "", "", "medverkande", "t0"]]
          "P002" (some "Bjorn") none none none "t1")).1 =
      [["P001", "Anna", "", "", "medverkande", "t0"]] ∧
    (getAllPeopleCached
        (invalidateAllCaches
          [⟨"cache_people", [["P001", "Anna", "", "", "medverkande", "t0"]], 500⟩])
        10
        (createPerson [["person_id", "name", "roles", "contact", "type", "created"],
          ["P001", "Anna", "", "", "medverkande", "t0"]]
          "P002" (some "Bjorn") none none none "t1")).1 =
      [["P001", "Anna", "", "", "medverkande", "t0"],
       ["P002", "Bjorn", "", "", "medverkande", "t1"]] :=
  ⟨by decide,
   (C5_cache_staleness_amended
      [⟨"cache_people", [["P001", "Anna", "", "", "medverkande", "t0"]], 500⟩] 10
      [["person_id", "name", "roles", "contact", "type", "created"],
       ["P001", "Anna", "", "", "medverkande", "t0"]]
      "P002" (some "Bjorn") none none none "t1"
      [["P001", "Anna", "", "", "medverkande", "t0"]] (by decide)).1,
   ((C5_cache_staleness_amended
      [⟨"cache_people", [["P001", "Anna", "", "", "medverkande", "t0"]], 500⟩] 10
      [["person_id", "name", "roles", "contact", "type", "created"],
       ["P001", "Anna", "", "", "medverkande", "t0"]]
      "P002" (some "Bjorn") none none none "t1"
      [["P001", "Anna", "", "", "medverkande", "t0"]] (by decide)).2.1).trans (by decide)⟩

/-- Counterexample to C5 as stated: `createPerson` successfully writes a
second person, yet the immediately following cached read of the participant
directory returns the pre-write snapshot, not the new value — the write
path performed no invalidation. -/
theorem C5_counterexample :
    (getAllPeopleCached
        [⟨"cache_people", [["P001", "Anna", "", "", "medverkande", "t0"]], 500⟩] 10
        (createPerson [["person_id", "name", "roles", "contact", "type", "created"],
          ["P001", "Anna", "", "", "medverkande", "t0"]]
          "P002" (some "Bjorn") none none none "t1")).1 ≠
      (createPerson [["person_id", "name", "roles", "contact", "type", "created"],
        ["P001", "Anna", "", "", "medverkande", "t0"]]
        "P002" (some "Bjorn") none none none "t1").drop 1 := by
  decide

end PublicService
